import Mathlib

/-!
# Verification of GADMA's optimization/restore core against its specification

This file is a shallow embedding, in Lean 4, of the parts of the GADMA
repository that the specification's claims talk about:

* `gadma/cli/settings_storage.py` — the dynamic attribute interception in
  `SettingsStorage.__setattr__` (derived GA options, class-level default
  domains of variable types, validation order) and `SettingsStorage.from_file`;
* `gadma/engines/dadi_engine.py` — `DadiEngine._get_kwargs`;
* the optimizer/run-coordination core (genetic algorithm engine, local
  optimizer adapter, `CoreRun`).  The Python sources of that core are not part
  of the source tree given here (only its tests are), so those components are
  modelled from the specification text, as indicated by the doc comments.

Python values are embedded with exact types: Python `float` values become `ℚ`
(the claims under study are about control flow and exact field updates, not
about rounding), `int` becomes `ℤ` or `ℕ`, lists become `List`, `None` becomes
`Option.none`.  Raising an exception is modelled by returning the (already
mutated) state together with `some` error, mirroring the fact that a Python
object keeps the mutations performed before the `raise`.
-/

/-- Python exceptions that the embedded code can raise. -/
inductive PyErr where
  | valueError (msg : String)
  | typeError (msg : String)
  | indexError (msg : String)
  | nameError (msg : String)
deriving DecidableEq, Repr

/-- Python `int(q)` on a real number: truncation toward zero. -/
def pyInt (q : ℚ) : ℤ := Int.tdiv q.num q.den

/-- The six bound settings of `SettingsStorage` handled by branch 3.9 of
`__setattr__` (`bounds_attrs = ['min_n', 'max_n', 'min_t', 'max_t', 'min_m',
'max_m']`). -/
inductive BoundsAttr where
  | minN | maxN | minT | maxT | minM | maxM
deriving DecidableEq, Repr

/-- Source order of `bounds_attrs` in `settings_storage.py` line 71. -/
def boundsAttrsList : List BoundsAttr :=
  [.minN, .maxN, .minT, .maxT, .minM, .maxM]

/-- Defaults provided by the `gadma.cli.settings` module (imported as
`settings` in `settings_storage.py`).  That module is not part of the given
sources, so the values are parameters of the embedding; a `none` field models
a Python `None` default. -/
structure SettingsDefaults where
  fractions : Option (List ℚ)
  size_of_generation : Option ℤ
  min_n : Option ℚ
  max_n : Option ℚ
  min_t : Option ℚ
  max_t : Option ℚ
  min_m : Option ℚ
  max_m : Option ℚ
  custom_filename : Option String
  initial_structure : Option (List ℤ)
deriving DecidableEq, Repr

/-- The instance attributes of a `SettingsStorage` object that the claims
touch.  A `none` field means the attribute was never stored on the instance,
so `__getattr__` would fall back to the `settings` module. -/
structure Storage where
  fractions : Option (List ℚ)
  size_of_generation : Option ℤ
  n_elitism : Option ℤ
  p_mutation : Option ℚ
  p_crossover : Option ℚ
  p_random : Option ℚ
  min_n : Option ℚ
  max_n : Option ℚ
  min_t : Option ℚ
  max_t : Option ℚ
  min_m : Option ℚ
  max_m : Option ℚ
  custom_filename : Option String
  initial_structure : Option (List ℤ)
deriving DecidableEq, Repr

/-- A `SettingsStorage` with no instance attributes stored yet. -/
def Storage.empty : Storage :=
  ⟨none, none, none, none, none, none, none, none, none, none, none, none,
   none, none⟩

/-- Attribute read through `__getattr__`: instance attribute first, then the
`settings` module default. -/
def Storage.fractionsRead (st : Storage) (d : SettingsDefaults) :
    Option (List ℚ) :=
  st.fractions.orElse (fun _ => d.fractions)

/-- Attribute read through `__getattr__` for `size_of_generation`. -/
def Storage.sizeRead (st : Storage) (d : SettingsDefaults) : Option ℤ :=
  st.size_of_generation.orElse (fun _ => d.size_of_generation)

/-- Attribute read through `__getattr__` for `custom_filename`. -/
def Storage.customFilenameRead (st : Storage) (d : SettingsDefaults) :
    Option String :=
  st.custom_filename.orElse (fun _ => d.custom_filename)

/-- Attribute read through `__getattr__` for `initial_structure` (only its
`None`-ness matters for the warnings modelled here; the structure-default
fallback of `__getattr__` needs `number_of_populations`, which is not set in
the scenarios under study). -/
def Storage.initialStructureRead (st : Storage) (d : SettingsDefaults) :
    Option (List ℤ) :=
  st.initial_structure.orElse (fun _ => d.initial_structure)

/-- Branch 3.7 of `__setattr__` (lines 283–293): when `fractions` or
`size_of_generation` is assigned, recompute the derived GA options.  The
assignments happen in source order (`n_elitism`, then `p_mutation`, then
`p_crossover`, then `p_random`), so a too-short list leaves a partial update
behind, and a `None` operand raises before anything is stored. -/
def gaOptionsUpdate (st : Storage) (fro : Option (List ℚ)) (szo : Option ℤ) :
    Storage × Option PyErr :=
  match fro with
  | none => (st, some (PyErr.typeError "NoneType object is not subscriptable"))
  | some fr =>
    match szo with
    | none => (st, some (PyErr.typeError
        "unsupported operand type for multiplication"))
    | some sz =>
      if fr.length < 1 then
        (st, some (PyErr.indexError "list index out of range"))
      else
        let st1 := { st with n_elitism := some (pyInt (fr.getD 0 0 * (sz : ℚ))) }
        if fr.length < 2 then
          (st1, some (PyErr.indexError "list index out of range"))
        else
          let st2 := { st1 with p_mutation := some (fr.getD 1 0) }
          if fr.length < 3 then
            (st2, some (PyErr.indexError "list index out of range"))
          else
            ({ st2 with p_crossover := some (fr.getD 2 0),
                        p_random := some (1 - fr.sum) }, none)

/-- `SettingsStorage.__setattr__(self, 'fractions', value)` for a list value.
Following the source order: the value is stored first (line 95), then
`we_check` is computed (step 0: checks are skipped when the value equals the
`settings` default), then check 1.5 (list of probabilities), then branch 3.7
(derived GA options). -/
def setFractions (d : SettingsDefaults) (st : Storage) (value : List ℚ) :
    Storage × Option PyErr :=
  let st1 := { st with fractions := some value }
  let weCheck := d.fractions ≠ some value
  if weCheck ∧ ¬ (∀ v ∈ value, 0 ≤ v ∧ v ≤ 1) then
    (st1, some (PyErr.valueError "must be list of probabilities"))
  else
    gaOptionsUpdate st1 (some value) (st1.sizeRead d)

/-- `SettingsStorage.__setattr__(self, 'size_of_generation', value)` for an
integer value: store first (line 95), then check 1.1 (positive integer), then
branch 3.7 (derived GA options, using the current `fractions`). -/
def setSizeOfGeneration (d : SettingsDefaults) (st : Storage) (value : ℤ) :
    Storage × Option PyErr :=
  let st1 := { st with size_of_generation := some value }
  let weCheck := d.size_of_generation ≠ some value
  if weCheck ∧ value < 0 then
    (st1, some (PyErr.valueError "must be positive"))
  else
    gaOptionsUpdate st1 (st1.fractionsRead d) (some value)

/-- Class-level mutable defaults `default_domain` of the three variable types
(`PopulationSizeVariable`, `TimeVariable`, `MigrationVariable`).  They are
Python class attributes (process-wide state), mutated by branch 3.9 of
`__setattr__`; each is a two-element list `[lower, upper]`. -/
structure VarDefaults where
  popDomain : List ℚ
  timeDomain : List ℚ
  migDomain : List ℚ
deriving DecidableEq, Repr

/-- Combined state affected by `__setattr__` on a bound setting: the storage
instance, the class-level default domains, and the warnings emitted so far
(`warnings.warn` appends). -/
structure CliState where
  storage : Storage
  vdefs : VarDefaults
  warnings : List String
deriving DecidableEq, Repr

/-- Store a bound setting on the instance (line 95 of `__setattr__`). -/
def Storage.boundsStore (st : Storage) (a : BoundsAttr) (v : ℚ) : Storage :=
  match a with
  | .minN => { st with min_n := some v }
  | .maxN => { st with max_n := some v }
  | .minT => { st with min_t := some v }
  | .maxT => { st with max_t := some v }
  | .minM => { st with min_m := some v }
  | .maxM => { st with max_m := some v }

/-- Attribute read through `__getattr__` for a bound setting. -/
def Storage.boundsRead (st : Storage) (d : SettingsDefaults) :
    BoundsAttr → Option ℚ
  | .minN => st.min_n.orElse (fun _ => d.min_n)
  | .maxN => st.max_n.orElse (fun _ => d.max_n)
  | .minT => st.min_t.orElse (fun _ => d.min_t)
  | .maxT => st.max_t.orElse (fun _ => d.max_t)
  | .minM => st.min_m.orElse (fun _ => d.min_m)
  | .maxM => st.max_m.orElse (fun _ => d.max_m)

/-- The `settings` module default of a bound setting (used for `we_check`). -/
def SettingsDefaults.boundsDefault (d : SettingsDefaults) :
    BoundsAttr → Option ℚ
  | .minN => d.min_n
  | .maxN => d.max_n
  | .minT => d.min_t
  | .maxT => d.max_t
  | .minM => d.min_m
  | .maxM => d.max_m

/-- The loop of check 1.6 (lines 186–195) over `bounds_attrs`: it walks the
list in order and `continue`s past attributes whose value is `None`; this
function returns the first attribute whose value is not `None`, which is the
one at which the loop evaluates `len(value)`. -/
def firstBoundsSet (st : Storage) (d : SettingsDefaults) :
    List BoundsAttr → Option BoundsAttr
  | [] => none
  | a :: rest =>
    match st.boundsRead d a with
    | some _ => some a
    | none => firstBoundsSet st d rest

/-- Branch 3.9 of `__setattr__` (lines 314–328): write the assigned value into
the matching slot of the matching variable type's class-level
`default_domain` (index 0 for a `min`, index 1 for a `max`). -/
def domainUpdate (vd : VarDefaults) : BoundsAttr → ℚ → VarDefaults
  | .minN, v => { vd with popDomain := vd.popDomain.set 0 v }
  | .maxN, v => { vd with popDomain := vd.popDomain.set 1 v }
  | .minT, v => { vd with timeDomain := vd.timeDomain.set 0 v }
  | .maxT, v => { vd with timeDomain := vd.timeDomain.set 1 v }
  | .minM, v => { vd with migDomain := vd.migDomain.set 0 v }
  | .maxM, v => { vd with migDomain := vd.migDomain.set 1 v }

/-- The warning emitted by lines 329–337 (the attribute name ends in exactly
one of `n`, `t`, `m`, so exactly one of the three `if`s fires). -/
def domainChangedWarning : BoundsAttr → String
  | .minN | .maxN => "Domain of PopulationSizeVariable changed"
  | .minT | .maxT => "Domain of TimeVariable changed"
  | .minM | .maxM => "Domain of MigrationVariable changed"

/-- The attribute name as it appears in the warning of lines 355–361. -/
def boundsAttrName : BoundsAttr → String
  | .minN => "min_n"
  | .maxN => "max_n"
  | .minT => "min_t"
  | .maxT => "max_t"
  | .minM => "min_m"
  | .maxM => "max_m"

/-- The module-level names of `settings_storage.py`: the imports of lines
2–17 and the constants and class of lines 19–38.  Note that none of
`PopulationSizeVariable`, `TimeVariable`, `MigrationVariable` (used by
branch 3.9, lines 316–337) nor `ContinuousVariable` (used by `get_model`,
line 683) is among them. -/
def settingsModuleScope : List String :=
  ["os", "ruamel", "np", "settings", "SFSDataHolder", "get_engine",
   "MomentsEngine", "StructureDemographicModel", "CustomDemographicModel",
   "get_local_optimizer", "get_global_optimizer",
   "LinearConstrainDemographics", "LinearConstrain", "ensure_dir_existence",
   "ensure_file_existence", "check_dir_existence", "custom_generator",
   "warnings", "importlib", "sys", "copy",
   "HOME_DIR", "PARAM_TEMPLATE", "EXTRA_PARAM_TEMPLATE",
   "CHANGED_IDENTIFIERS", "DEPRECATED_IDENTIFIERS", "SettingsStorage"]

/-- The variable-class name that the matching arm of branch 3.9 evaluates
first (`PopulationSizeVariable.default_domain[...] = value`, etc.). -/
def varClassName : BoundsAttr → String
  | .minN | .maxN => "PopulationSizeVariable"
  | .minT | .maxT => "TimeVariable"
  | .minM | .maxM => "MigrationVariable"

/-- The tail of `__setattr__` for a bound setting once the checks have
passed: branch 3.9 (lines 314–337).  Each arm's first statement evaluates
the variable-class name (`PopulationSizeVariable.default_domain[0] = value`,
…); that name is not bound at module level in `settings_storage.py` (see
`settingsModuleScope`), so the lookup raises `NameError` before any
assignment.  The in-scope continuation — the domain update, the
domain-changed warning of lines 329–337 and the lines 355–361 warning
(emitted when `custom_filename` is `None`, with a longer text when
`initial_structure` is set) — is kept below but is unreachable in this
module. -/
def setBoundsAttrDomainPart (d : SettingsDefaults) (cs : CliState)
    (st1 : Storage) (a : BoundsAttr) (value : ℚ) : CliState × Option PyErr :=
  if settingsModuleScope.contains (varClassName a) then
    let vd1 := domainUpdate cs.vdefs a value
    let w1 := cs.warnings ++ [domainChangedWarning a]
    let w2 :=
      if st1.customFilenameRead d = none then
        if st1.initialStructureRead d ≠ none then
          w1 ++ ["Setting " ++ boundsAttrName a ++
                 " is set before custom_filename is set." ++
                 " It will be ignored as initial structure of model is set."]
        else
          w1 ++ ["Setting " ++ boundsAttrName a ++
                 " is set before custom_filename is set."]
      else w1
    ({ storage := st1, vdefs := vd1, warnings := w2 }, none)
  else
    ({ cs with storage := st1 },
     some (PyErr.nameError ("name " ++ varClassName a ++ " is not defined")))

/-- `SettingsStorage.__setattr__(self, name, value)` for a bound setting
(`min_n`, `max_n`, `min_t`, `max_t`, `min_m`, `max_m`) assigned a float
value, together with the class-level domain state and warnings.  Source
order: store (line 95), compute `we_check` (step 0), check 1.2 (is a float —
always true for a float value), check 1.6 (lines 182–195: for a bound
setting the loop compares `len(value)` with the length of every other
non-`None` bound setting; `value` is a float, so the first such comparison
raises `TypeError`; the just-stored attribute itself is never `None`, so the
loop always reaches one), then branch 3.9 — which itself raises `NameError`
on the unimported variable-class name whenever it is reached. -/
def setBoundsAttr (d : SettingsDefaults) (cs : CliState) (a : BoundsAttr)
    (value : ℚ) : CliState × Option PyErr :=
  let st1 := cs.storage.boundsStore a value
  let weCheck := d.boundsDefault a ≠ some value
  if weCheck then
    match firstBoundsSet st1 d boundsAttrsList with
    | some _ =>
      ({ cs with storage := st1 },
       some (PyErr.typeError "object of type float has no len"))
    | none =>
      -- unreachable: the attribute just stored is itself not None
      (setBoundsAttrDomainPart d cs st1 a value)
  else
    (setBoundsAttrDomainPart d cs st1 a value)

/-- Names in scope inside the body of the static method
`SettingsStorage.from_file` (its parameters plus the module-level names of
`settings_storage.py`: imports of lines 2–17 and the module constants and
class of lines 19–38).  Note that the second parameter is spelled
`extra_param_file`, and that `extra_params_file` (with an `s`) is bound
nowhere. -/
def fromFileScope : List String :=
  "param_file" :: "extra_param_file" :: settingsModuleScope

/-- Python name resolution inside `from_file`: a name not bound in any
enclosing scope raises `NameError` when evaluated. -/
def lookupName (n : String) : Option PyErr :=
  if fromFileScope.contains n then none
  else some (PyErr.nameError ("name " ++ n ++ " is not defined"))

/-- Outcome of a call to `SettingsStorage.from_file` as far as the fast path
is concerned. -/
inductive FromFileOutcome where
  | storageReturned
  | continuedToLoad
  | raised (e : PyErr)
deriving DecidableEq, Repr

/-- The fast-path guard of `SettingsStorage.from_file` (lines 499–501):
`if param_file is None and extra_params_file is None: return
SettingsStorage()`.  Python evaluates `param_file is None` first and
short-circuits; only when it is `True` is the name `extra_params_file`
evaluated — and that name is undefined.  The rest of the function (loading
the YAML files into a fresh `SettingsStorage`) is reachable only through the
`continuedToLoad` outcome and is not modelled further, since the claim under
study is about the guard. -/
def from_file (param_file : Option String) (extra_param_file : Option String) :
    FromFileOutcome :=
  if param_file = none then
    match lookupName "extra_params_file" with
    | some e => .raised e
    | none =>
      -- would compare the (undefined) name against None; unreachable
      if extra_param_file = none then .storageReturned else .continuedToLoad
  else
    .continuedToLoad

/-- Arguments passed to the `dadi.Integration` functions: a demographic-model
variable, a fixed numeric value, or a Python string (such as `'Sud'` or the
generated `'nu1_func'` names). -/
inductive DArg where
  | var (name : String)
  | val (q : ℚ)
  | str (s : String)
deriving DecidableEq, Repr

/-- `var2value.get(k, k)`: dictionary lookup with the key itself as the
default. -/
def v2vGet (m : List (DArg × DArg)) (k : DArg) : DArg :=
  (m.lookup k).getD k

/-- Lookup in an embedded Python dict (association list in insertion order). -/
def dlookup (k : String) : List (String × DArg) → Option DArg
  | [] => none
  | p :: ps => if p.1 = k then some p.2 else dlookup k ps

/-- `d[k] = v` on a Python dict: overwrite in place if the key is present
(keeping its position), else append. -/
def dictSet : List (String × DArg) → String → DArg → List (String × DArg)
  | [], k, v => [(k, v)]
  | p :: ps, k, v => if p.1 = k then (k, v) :: ps else p :: dictSet ps k v

/-- Whether an embedded Python dict has a key. -/
def hasKey (d : List (String × DArg)) (k : String) : Prop :=
  (dlookup k d).isSome

instance (d : List (String × DArg)) (k : String) : Decidable (hasKey d k) := by
  unfold hasKey; infer_instance

/-- The `Epoch` events of `gadma.models` as consumed by
`DadiEngine._get_kwargs`: a number of populations, a time argument, per-pop
size arguments, and optional dynamics, migration, and selection arguments. -/
structure Epoch where
  n_pop : ℕ
  time_arg : DArg
  size_args : List DArg
  dyn_args : Option (List DArg)
  mig_args : Option (List (List DArg))
  sel_args : Option (List DArg)
deriving DecidableEq, Repr

/-- `DadiEngine._get_kwargs(event, var2value)` (dadi_engine.py lines 25–65):
builds the kwargs dict for the `dadi.Integration` functions.  `'T'` is set
first; then one size key per population (`'nu'` for a single population,
`'nu1'..'nuN'` otherwise, with a `'nu%d_func'` string value when the
population's dynamic is not `'Sud'`); then, when `mig_args` is present, a key
`'m%d%d' % (i+1, j+1)` for every ordered pair with `i != j`; finally, when
`sel_args` is present, the (buggy) selection loop, whose key name uses the
leftover loop index `i = n_pop - 1` and is overwritten on every iteration. -/
def getKwargs (event : Epoch) (var2value : List (DArg × DArg)) :
    List (String × DArg) :=
  let d0 : List (String × DArg) := [("T", event.time_arg)]
  let d1 := (List.range event.n_pop).foldl (fun d i =>
    let argName := if event.n_pop = 1 then "nu" else "nu" ++ toString (i + 1)
    match event.dyn_args with
    | some dyns =>
      if v2vGet var2value (dyns.getD i (DArg.str "")) = DArg.str "Sud" then
        dictSet d argName (event.size_args.getD i (DArg.str ""))
      else
        dictSet d argName (DArg.str ("nu" ++ toString (i + 1) ++ "_func"))
    | none => dictSet d argName (event.size_args.getD i (DArg.str ""))) d0
  let d2 :=
    match event.mig_args with
    | none => d1
    | some migs =>
      (List.range event.n_pop).foldl (fun d i =>
        (List.range event.n_pop).foldl (fun d j =>
          if i = j then d
          else
            dictSet d ("m" ++ toString (i + 1) ++ toString (j + 1))
              ((migs.getD i []).getD j (DArg.str ""))) d) d1
  match event.sel_args with
  | none => d2
  | some sels =>
    let argName :=
      if event.n_pop = 1 then "gamma"
      else "gamma" ++ toString (event.n_pop - 1 + 1)
    (List.range event.n_pop).foldl (fun d i =>
      dictSet d argName (sels.getD i (DArg.str ""))) d2

/-- Concrete `settings` defaults used by witnesses and counterexamples:
`fractions` and `size_of_generation` have module defaults, the bound
settings and `custom_filename` default to `None`. -/
def sampleDefaults : SettingsDefaults :=
  ⟨some [0, 1, 0], some 10, none, none, none, none, none, none, none, none⟩

/-- C6 counterexample input: a valid list of probabilities. -/
def c6Fractions : List ℚ := [1/2, 1/4, 1/8]

/-- C6: counterexample.  Assigning the valid `fractions` list
`[1/2, 1/4, 1/8]` to a fresh `SettingsStorage` (with module default
`size_of_generation = 10`) succeeds, but the derived settings satisfy
`p_mutation + p_crossover + p_random = 1/2`, not (approximately) `1`: the
code sets `p_random = 1 - sum(fractions)`, so the three probabilities sum to
`1 - fractions[0]`. -/
theorem setFractions_sum_counterexample :
    (setFractions sampleDefaults Storage.empty c6Fractions).2 = none
    ∧ (setFractions sampleDefaults Storage.empty c6Fractions).1.p_mutation.getD 0
        + (setFractions sampleDefaults Storage.empty c6Fractions).1.p_crossover.getD 0
        + (setFractions sampleDefaults Storage.empty c6Fractions).1.p_random.getD 0
      = 1/2
    ∧ ((1 : ℚ)/2 ≠ 1) := by
  refine ⟨?_, ?_, by norm_num⟩ <;>
    norm_num [setFractions, gaOptionsUpdate, Storage.sizeRead, Storage.empty,
      sampleDefaults, c6Fractions]

/-- C6 (amended): assigning `fractions` (a length-3 list of values in
`[0, 1]`) or `size_of_generation` sets `n_elitism = int(fractions[0] *
size_of_generation)`, `p_mutation = fractions[1]`, `p_crossover =
fractions[2]`, `p_random = 1 - sum(fractions)`; consequently `p_mutation +
p_crossover + p_random = 1 - fractions[0]` (the three latter fractions sum
to `1` only when the elitism fraction is `0`). -/
theorem setFractions_ga_options (d : SettingsDefaults) (st : Storage)
    (fr : List ℚ) (sz v : ℤ)
    (hlen : fr.length = 3) (hbd : ∀ q ∈ fr, 0 ≤ q ∧ q ≤ 1)
    (hsz : st.sizeRead d = some sz)
    (hv : 0 ≤ v) (hfr : st.fractionsRead d = some fr) :
    ((setFractions d st fr).2 = none
      ∧ (setFractions d st fr).1.n_elitism
          = some (pyInt (fr.getD 0 0 * (sz : ℚ)))
      ∧ (setFractions d st fr).1.p_mutation = some (fr.getD 1 0)
      ∧ (setFractions d st fr).1.p_crossover = some (fr.getD 2 0)
      ∧ (setFractions d st fr).1.p_random = some (1 - fr.sum))
    ∧ ((setSizeOfGeneration d st v).2 = none
      ∧ (setSizeOfGeneration d st v).1.n_elitism
          = some (pyInt (fr.getD 0 0 * (v : ℚ)))
      ∧ (setSizeOfGeneration d st v).1.p_mutation = some (fr.getD 1 0)
      ∧ (setSizeOfGeneration d st v).1.p_crossover = some (fr.getD 2 0)
      ∧ (setSizeOfGeneration d st v).1.p_random = some (1 - fr.sum))
    ∧ fr.getD 1 0 + fr.getD 2 0 + (1 - fr.sum) = 1 - fr.getD 0 0 := by
  obtain ⟨a, b, c, rfl⟩ := List.length_eq_three.mp hlen
  have hnot : ¬ (d.fractions ≠ some [a, b, c]
      ∧ ¬ ∀ q ∈ ([a, b, c] : List ℚ), 0 ≤ q ∧ q ≤ 1) := by
    rintro ⟨-, hq⟩; exact hq hbd
  have hszlt : ¬ (d.size_of_generation ≠ some v ∧ v < 0) := by
    rintro ⟨-, hq⟩; exact absurd hv (not_le.mpr hq)
  have hsz1 : Storage.sizeRead { st with fractions := some [a, b, c] } d
      = some sz := by
    simpa [Storage.sizeRead] using hsz
  have hfr1 : Storage.fractionsRead { st with size_of_generation := some v } d
      = some [a, b, c] := by
    simpa [Storage.fractionsRead] using hfr
  refine ⟨?_, ?_, by simp; ring⟩
  · simp only [setFractions, if_neg hnot, hsz1]
    simp [gaOptionsUpdate]
  · simp only [setSizeOfGeneration, if_neg hszlt, hfr1]
    simp [gaOptionsUpdate]

/-- C6 witness: the amended theorem applied at the concrete inputs
`fractions = [0, 1, 0]`, `size_of_generation` default `10`, new size `7`. -/
theorem setFractions_ga_options_witness :
    (([0, 1, 0] : List ℚ).length = 3
      ∧ (∀ q ∈ ([0, 1, 0] : List ℚ), 0 ≤ q ∧ q ≤ 1)
      ∧ Storage.sizeRead Storage.empty sampleDefaults = some 10
      ∧ (0 : ℤ) ≤ 7
      ∧ Storage.fractionsRead Storage.empty sampleDefaults = some [0, 1, 0])
    ∧ (setFractions sampleDefaults Storage.empty [0, 1, 0]).1.p_random
        = some (1 - ([0, 1, 0] : List ℚ).sum) :=
  ⟨⟨by decide, by decide, by rfl, by decide, by rfl⟩,
   (setFractions_ga_options sampleDefaults Storage.empty [0, 1, 0] 10 7
      (by decide) (by decide) (by rfl) (by decide) (by rfl)).1.2.2.2.2⟩

/-- Initial state for the C7 evaluation: fresh storage, the usual class-level
default domains, no warnings yet. -/
def c7State : CliState := ⟨Storage.empty, ⟨[1, 100], [0, 5], [0, 10]⟩, []⟩

/-- Settings defaults whose `min_n` default equals the assigned value `2`,
putting the assignment on the `we_check = False` path that reaches branch
3.9. -/
def c7DefaultsEq : SettingsDefaults :=
  ⟨some [0, 1, 0], some 10, some 2, none, none, none, none, none, none, none⟩

/-- C7: evaluation at the failing inputs.  Assigning `min_n = 2` with a
different `settings` default (so `we_check` holds) raises `TypeError` inside
the length-comparison loop of check 1.6 — which calls `len(value)` on a
float — before branch 3.9 is ever reached; and even on the only path that
reaches branch 3.9 (assigning a value equal to the `settings` default, so
the checks are skipped) the branch raises `NameError`, because
`PopulationSizeVariable` is never imported in `settings_storage.py`.  In
both cases the attribute is stored on the instance, but no `default_domain`
is updated and no warning is emitted, contradicting the claimed
update-and-warn behaviour. -/
theorem setBoundsAttr_min_n_raises :
    ((setBoundsAttr sampleDefaults c7State BoundsAttr.minN 2).2
      = some (PyErr.typeError "object of type float has no len")
    ∧ (setBoundsAttr sampleDefaults c7State BoundsAttr.minN 2).1.storage.min_n
      = some 2
    ∧ (setBoundsAttr sampleDefaults c7State BoundsAttr.minN 2).1.vdefs
      = c7State.vdefs
    ∧ (setBoundsAttr sampleDefaults c7State BoundsAttr.minN 2).1.warnings
      = [])
    ∧ ((setBoundsAttr c7DefaultsEq c7State BoundsAttr.minN 2).2
      = some (PyErr.nameError "name PopulationSizeVariable is not defined")
    ∧ (setBoundsAttr c7DefaultsEq c7State BoundsAttr.minN 2).1.storage.min_n
      = some 2
    ∧ (setBoundsAttr c7DefaultsEq c7State BoundsAttr.minN 2).1.vdefs
      = c7State.vdefs
    ∧ (setBoundsAttr c7DefaultsEq c7State BoundsAttr.minN 2).1.warnings
      = []) := by
  decide

/-- C8: the assigned value is stored on the object (line 95 of
`__setattr__`) before the validation checks run, so when a check raises
`ValueError` — a negative `size_of_generation`, or a `fractions` entry
outside `[0, 1]` — the attribute already holds the rejected value
afterwards. -/
theorem setattr_stores_before_validation (d : SettingsDefaults) (st : Storage)
    (v : ℤ) (fr : List ℚ)
    (hv : v < 0) (hd : d.size_of_generation ≠ some v)
    (hbad : ¬ ∀ q ∈ fr, 0 ≤ q ∧ q ≤ 1) (hdf : d.fractions ≠ some fr) :
    ((setSizeOfGeneration d st v).2
        = some (PyErr.valueError "must be positive")
      ∧ (setSizeOfGeneration d st v).1.size_of_generation = some v)
    ∧ ((setFractions d st fr).2
        = some (PyErr.valueError "must be list of probabilities")
      ∧ (setFractions d st fr).1.fractions = some fr) := by
  constructor
  · simp [setSizeOfGeneration, hv, hd]
  · simp [setFractions, hbad, hdf]

/-- C8 witness: the theorem applied at `size_of_generation = -1` and
`fractions = [2]`. -/
theorem setattr_stores_before_validation_witness :
    ((-1 : ℤ) < 0
      ∧ sampleDefaults.size_of_generation ≠ some (-1)
      ∧ ¬ (∀ q ∈ ([2] : List ℚ), 0 ≤ q ∧ q ≤ 1)
      ∧ sampleDefaults.fractions ≠ some [2])
    ∧ (setSizeOfGeneration sampleDefaults Storage.empty (-1)).1.size_of_generation
        = some (-1) :=
  ⟨⟨by decide, by decide, by decide, by decide⟩,
   (setattr_stores_before_validation sampleDefaults Storage.empty (-1) [2]
      (by decide) (by decide) (by decide) (by decide)).1.2⟩

/-- C9: `SettingsStorage.from_file(param_file, extra_param_file)` with
`param_file = None` evaluates the undefined name `extra_params_file` in the
fast-path guard and raises `NameError` — in particular no `SettingsStorage`
is returned, even in the `None`/`None` case where the fast path intends to
return a default one. -/
theorem from_file_none_raises (extra : Option String) :
    from_file none extra
      = FromFileOutcome.raised
          (PyErr.nameError "name extra_params_file is not defined")
    ∧ from_file none extra ≠ FromFileOutcome.storageReturned := by
  constructor
  · rfl
  · intro h
    rw [show from_file none extra
        = FromFileOutcome.raised
            (PyErr.nameError "name extra_params_file is not defined") from rfl]
      at h
    exact FromFileOutcome.noConfusion h

/-- Looking a key up after a Python dict assignment: the new key maps to the
new value, all other keys are unchanged. -/
theorem dlookup_dictSet (d : List (String × DArg)) (k : String) (v : DArg)
    (k' : String) :
    dlookup k' (dictSet d k v) = if k' = k then some v else dlookup k' d := by
  induction d with
  | nil =>
    simp only [dictSet, dlookup]
    split_ifs with h1 h2 h3 <;> simp_all
  | cons p ps ih =>
    by_cases hpk : p.1 = k
    · simp only [dictSet, if_pos hpk, dlookup]
      by_cases h : k' = k
      · rw [if_pos h.symm, if_pos h]
      · rw [if_neg (fun hh => h hh.symm), if_neg h]
        rw [if_neg (fun hh : p.1 = k' => h (hpk.symm.trans hh).symm)]
    · simp only [dictSet, if_neg hpk, dlookup, ih]
      by_cases hpk' : p.1 = k'
      · have hk : ¬ k' = k := fun hh => hpk (hpk'.trans hh)
        rw [if_pos hpk', if_neg hk, if_pos hpk']
      · rw [if_neg hpk']
        by_cases h : k' = k
        · rw [if_pos h, if_pos h]
        · rw [if_neg h, if_neg h, if_neg hpk']

/-- `dlookup` distributes over an `if` on dictionaries. -/
theorem dlookup_ite (c : Prop) [Decidable c] (a b : List (String × DArg))
    (k : String) :
    dlookup k (if c then a else b)
      = if c then dlookup k a else dlookup k b :=
  apply_ite (dlookup k) c a b

/-- `Option.isSome` distributes over an `if`. -/
theorem isSome_ite (c : Prop) [Decidable c] (a b : Option DArg) :
    (if c then a else b).isSome = if c then a.isSome else b.isSome :=
  apply_ite Option.isSome c a b

/-- Decimal rendering of the population indices used in the kwarg keys. -/
theorem natStr1 : (toString (1 : ℕ)) = "1" := rfl

/-- Decimal rendering of the population indices used in the kwarg keys. -/
theorem natStr2 : (toString (2 : ℕ)) = "2" := rfl

/-- Decimal rendering of the population indices used in the kwarg keys. -/
theorem natStr3 : (toString (3 : ℕ)) = "3" := rfl

set_option maxHeartbeats 2000000 in
/-- C10: for every `Epoch` event (with 1–3 populations, the range supported
by `dadi.Integration`), `DadiEngine._get_kwargs` maps `'T'` to the event's
`time_arg`; it uses the single size key `'nu'` (and no `'nu1'`) when the
event has one population and the keys `'nu1'..'nuN'` (and no `'nu'`) when it
has `N > 1`; and when migration arguments are present it contains a key
`'m%d%d'` for every ordered pair of distinct populations and never a
self-migration key `'m%d%d'` with equal indices. -/
theorem dadi_get_kwargs_keys (e : Epoch) (v2v : List (DArg × DArg))
    (h1 : 1 ≤ e.n_pop) (h3 : e.n_pop ≤ 3) :
    dlookup "T" (getKwargs e v2v) = some e.time_arg
    ∧ (e.n_pop = 1 →
        hasKey (getKwargs e v2v) "nu" ∧ ¬ hasKey (getKwargs e v2v) "nu1")
    ∧ (1 < e.n_pop → ¬ hasKey (getKwargs e v2v) "nu"
        ∧ ∀ i < e.n_pop, hasKey (getKwargs e v2v) ("nu" ++ toString (i + 1)))
    ∧ (e.mig_args.isSome →
        (∀ i < e.n_pop, ∀ j < e.n_pop, i ≠ j →
          hasKey (getKwargs e v2v)
            ("m" ++ toString (i + 1) ++ toString (j + 1)))
        ∧ (∀ i < e.n_pop,
          ¬ hasKey (getKwargs e v2v)
            ("m" ++ toString (i + 1) ++ toString (i + 1)))) := by
  obtain ⟨np, T, sizes, dyns, migs, sels⟩ := e
  simp only at h1 h3 ⊢
  interval_cases np <;>
    rcases dyns with _ | dyns <;> rcases migs with _ | migs <;>
      rcases sels with _ | sels <;>
    · refine ⟨?_, ?_, ?_, ?_⟩ <;>
        simp [getKwargs, List.range_succ, dlookup_ite, dlookup_dictSet, hasKey,
          dlookup, isSome_ite, natStr1, natStr2, natStr3] <;>
        (try constructor) <;>
        (try (intro i hi; interval_cases i)) <;>
        (try (intro j hj; interval_cases j)) <;>
        (try simp [dlookup_ite, dlookup_dictSet, dlookup, isSome_ite, natStr1,
          natStr2, natStr3])

/-- A concrete two-population epoch with migrations, for the C10 witness. -/
def epochW : Epoch :=
  ⟨2, DArg.var "t1", [DArg.var "nu11", DArg.var "nu21"], none,
   some [[DArg.val 0, DArg.var "m12v"], [DArg.var "m21v", DArg.val 0]], none⟩

/-- C10 witness: the theorem applied to a concrete two-population epoch. -/
theorem dadi_get_kwargs_keys_witness :
    (1 ≤ epochW.n_pop ∧ epochW.n_pop ≤ 3)
    ∧ dlookup "T" (getKwargs epochW []) = some epochW.time_arg :=
  ⟨⟨by decide, by decide⟩, (dadi_get_kwargs_keys epochW [] (by decide) (by decide)).1⟩

/-- Fuel-bounded while-loop: apply `f` until `halt` holds or the fuel runs
out.  The optimizer loops below instantiate it with enough fuel for the
termination test to be the real exit condition. -/
def iterLoop {σ : Type} (f : σ → σ) (halt : σ → Bool) : ℕ → σ → σ
  | 0, s => s
  | n + 1, s => if halt s then s else iterLoop f halt n (f s)

theorem iterLoop_halt {σ : Type} (f : σ → σ) (halt : σ → Bool) (n : ℕ)
    (s : σ) (h : halt s = true) : iterLoop f halt n s = s := by
  cases n <;> simp [iterLoop, h]

theorem iterLoop_add {σ : Type} (f : σ → σ) (halt : σ → Bool) (m n : ℕ)
    (s : σ) :
    iterLoop f halt (m + n) s = iterLoop f halt n (iterLoop f halt m s) := by
  induction m generalizing s with
  | zero => simp [iterLoop]
  | succ m ih =>
    by_cases h : halt s = true
    · rw [iterLoop_halt _ _ _ _ h, iterLoop_halt _ _ _ _ h,
        iterLoop_halt _ _ _ _ h]
    · have hmn : m + 1 + n = (m + n) + 1 := by omega
      rw [hmn]
      simp only [iterLoop, h, if_false, Bool.false_eq_true, ite_false]
      exact ih (f s)

theorem iterLoop_eq_of_measure {σ : Type} (f : σ → σ) (halt : σ → Bool)
    (μ : σ → ℕ) (hdec : ∀ t, halt t = false → μ (f t) < μ t) :
    ∀ (n m : ℕ) (s : σ), μ s ≤ n → μ s ≤ m →
      iterLoop f halt n s = iterLoop f halt m s := by
  intro n
  induction n with
  | zero =>
    intro m s hn _
    have hhalt : halt s = true := by
      by_contra hc
      have := hdec s (by simpa using hc)
      omega
    rw [iterLoop_halt _ _ _ _ hhalt, iterLoop_halt _ _ _ _ hhalt]
  | succ n ih =>
    intro m s hn hm
    cases m with
    | zero =>
      have hhalt : halt s = true := by
        by_contra hc
        have := hdec s (by simpa using hc)
        omega
      rw [iterLoop_halt _ _ _ _ hhalt, iterLoop_halt _ _ _ _ hhalt]
    | succ m =>
      by_cases h : halt s = true
      · rw [iterLoop_halt _ _ _ _ h, iterLoop_halt _ _ _ _ h]
      · simp only [iterLoop, h, Bool.false_eq_true, ite_false]
        have hlt := hdec s (by simpa using h)
        exact ih m (f s) (by omega) (by omega)

theorem iterLoop_halted {σ : Type} (f : σ → σ) (halt : σ → Bool)
    (μ : σ → ℕ) (hdec : ∀ t, halt t = false → μ (f t) < μ t) :
    ∀ (n : ℕ) (s : σ), μ s ≤ n → halt (iterLoop f halt n s) = true := by
  intro n
  induction n with
  | zero =>
    intro s hn
    have hhalt : halt s = true := by
      by_contra hc
      have := hdec s (by simpa using hc)
      omega
    simpa [iterLoop] using hhalt
  | succ n ih =>
    intro s hn
    by_cases h : halt s = true
    · rw [iterLoop_halt _ _ _ _ h]; exact h
    · simp only [iterLoop, h, Bool.false_eq_true, ite_false]
      have hlt := hdec s (by simpa using h)
      exact ih (f s) (by omega)

theorem iterLoop_inv {σ : Type} (f : σ → σ) (halt : σ → Bool) (P : σ → Prop)
    (hstep : ∀ t, P t → P (f t)) :
    ∀ (n : ℕ) (s : σ), P s → P (iterLoop f halt n s) := by
  intro n
  induction n with
  | zero => intro s hs; simpa [iterLoop] using hs
  | succ n ih =>
    intro s hs
    by_cases h : halt s = true
    · rw [iterLoop_halt _ _ _ _ h]; exact hs
    · simp only [iterLoop, h, Bool.false_eq_true, ite_false]
      exact ih (f s) (hstep s hs)

theorem iterLoop_mono {σ : Type} (f : σ → σ) (halt : σ → Bool) (m : σ → ℚ)
    (hstep : ∀ t, m t ≤ m (f t)) :
    ∀ (n : ℕ) (s : σ), m s ≤ m (iterLoop f halt n s) := by
  intro n
  induction n with
  | zero => intro s; simp [iterLoop]
  | succ n ih =>
    intro s
    by_cases h : halt s = true
    · rw [iterLoop_halt _ _ _ _ h]
    · simp only [iterLoop, h, Bool.false_eq_true, ite_false]
      exact le_trans (hstep s) (ih (f s))

/-- Modelled from the spec: the typed search-space dimensions of §3/§4.1
(`Variable`), whose Python sources (`gadma.utils.variables`) are not in the
given tree: an identifier, ordered domain bounds, and a log-scale flag. -/
structure Variable where
  name : String
  lower : ℚ
  upper : ℚ
  logScale : Bool
deriving DecidableEq, Repr

/-- Modelled from the spec: the seeded pseudo-random source required by §4.2
("deterministic given a seeded random source"): a linear-congruential step on
a natural-number state. -/
def rngNext (s : ℕ) : ℕ := (1103515245 * s + 12345) % 2147483648

/-- Modelled from the spec: a draw in `[0, 1)` from the seeded source,
returning the advanced state. -/
def rngUnit (s : ℕ) : ℕ × ℚ := (rngNext s, ((rngNext s % 1024 : ℕ) : ℚ) / 1024)

/-- Modelled from the spec: a draw in `[0, n)` from the seeded source. -/
def rngBelow (s n : ℕ) : ℕ × ℕ :=
  (rngNext s, if n = 0 then 0 else rngNext s % n)

/-- Clipping to a domain, used by `perturb` (§4.1). -/
def clip (lo hi v : ℚ) : ℚ := max lo (min hi v)

/-- Modelled from the spec: `Variable.resample()` (§4.1) — a value drawn from
the domain, deterministic given the random state. -/
def Variable.resample (v : Variable) (s : ℕ) : ℕ × ℚ :=
  let r := rngUnit s
  (r.1, v.lower + r.2 * (v.upper - v.lower))

/-- Modelled from the spec: `Variable.perturb(value, strength)` (§4.1) — a
value near `value`, clipped to the domain, with `strength` controlling the
relative jump size. -/
def Variable.perturb (v : Variable) (x strength : ℚ) (s : ℕ) : ℕ × ℚ :=
  let r := rngUnit s
  (r.1,
   clip v.lower v.upper (x + (2 * r.2 - 1) * strength * (v.upper - v.lower)))

/-- Resample every variable of a list, threading the random state. -/
def resampleVec : List Variable → ℕ → ℕ × List ℚ
  | [], s => (s, [])
  | v :: vs, s =>
    let r := v.resample s
    let rest := resampleVec vs r.1
    (rest.1, r.2 :: rest.2)

/-- Perturb a vector coordinate-wise (resampling any missing coordinate),
threading the random state. -/
def perturbVec (strength : ℚ) : List Variable → List ℚ → ℕ → ℕ × List ℚ
  | [], _, s => (s, [])
  | v :: vs, [], s =>
    let r := v.resample s
    let rest := perturbVec strength vs [] r.1
    (rest.1, r.2 :: rest.2)
  | v :: vs, x :: xs, s =>
    let r := v.perturb x strength s
    let rest := perturbVec strength vs xs r.1
    (rest.1, r.2 :: rest.2)

/-- Modelled from the spec: index-wise uniform crossover of two parents
(§4.2 step 4), threading the random state. -/
def crossVec : List ℚ → List ℚ → ℕ → ℕ × List ℚ
  | [], _, s => (s, [])
  | x :: xs, [], s => (s, x :: xs)
  | x :: xs, y :: ys, s =>
    let s1 := rngNext s
    let rest := crossVec xs ys s1
    (rest.1, (if s1 % 2 = 0 then x else y) :: rest.2)

/-- Modelled from the spec: a `Candidate` (§3) — a parameter vector with its
cached fitness score. -/
structure Candidate where
  x : List ℚ
  y : ℚ
deriving DecidableEq, Repr

/-- Modelled from the spec: the configuration of the genetic-algorithm engine
(§4.2) in maximize mode: the fitness function, variables, generation size,
the per-generation counts of elite/mutated/crossed candidates (the spec's
`n_elitism`, `round(p_mutation * gen_size)` and `round(p_crossover *
gen_size)`; the random fraction is the remainder), the mutation strength with
its adaptive constant, the improvement tolerance `eps`, and the
stuck-generation threshold. -/
structure GAConfig where
  f : List ℚ → ℚ
  vars : List Variable
  gen_size : ℕ
  n_elitism : ℕ
  n_mutation : ℕ
  n_crossover : ℕ
  mut_strength : ℚ
  const_mut_strength : ℚ
  eps : ℚ
  n_stuck_gen : ℕ

/-- Evaluate a parameter vector into a scored candidate (§4.2 step 6). -/
def mkCand (cfg : GAConfig) (x : List ℚ) : Candidate := ⟨x, cfg.f x⟩

/-- Modelled from the spec: the GA `OptimizerState`/`Checkpoint` (§3):
generation index, full population with scores, stuck counter, random state,
best result so far, plus the evaluation count and best-score history that
feed the returned `Result`. -/
structure GAState where
  pop : List Candidate
  best : Candidate
  gen : ℕ
  stuck : ℕ
  rng : ℕ
  nEval : ℕ
  hist : List ℚ

/-- The best of a non-empty collection, processed as an accumulator plus a
list (first occurrence wins ties, the spec's insertion-order tie-break). -/
def popBest : Candidate → List Candidate → Candidate
  | c, [] => c
  | c, d :: ds => popBest (if c.y < d.y then d else c) ds

/-- The best of a population (`mkCand cfg []` for an empty one). -/
def popBest0 (cfg : GAConfig) : List Candidate → Candidate
  | [] => mkCand cfg []
  | h :: t => popBest h t

/-- Insert into a list sorted by descending score (stable). -/
def insertCand (c : Candidate) : List Candidate → List Candidate
  | [] => [c]
  | d :: ds => if d.y < c.y then c :: d :: ds else d :: insertCand c ds

/-- Sort a population by descending fitness (§4.2 step 1). -/
def sortPop (l : List Candidate) : List Candidate := l.foldr insertCand []

/-- Modelled from the spec: rank-biased parent selection (§4.2): two draws,
keeping the better (lower) rank in the descending-sorted population. -/
def selectIdx (s n : ℕ) : ℕ × ℕ :=
  let r1 := rngBelow s n
  let r2 := rngBelow r1.1 n
  (r2.1, min r1.2 r2.2)

/-- Generate one mutated parameter vector (§4.2 step 3). -/
def mutXsGen (cfg : GAConfig) (sorted : List Candidate) (strength : ℚ)
    (s : ℕ) : ℕ × List ℚ :=
  let r := selectIdx s sorted.length
  perturbVec strength cfg.vars (sorted.getD r.2 ⟨[], 0⟩).x r.1

/-- Generate one crossed-over parameter vector (§4.2 step 4). -/
def crossXsGen (cfg : GAConfig) (sorted : List Candidate) (s : ℕ) :
    ℕ × List ℚ :=
  let r1 := selectIdx s sorted.length
  let r2 := selectIdx r1.1 sorted.length
  crossVec (sorted.getD r1.2 ⟨[], 0⟩).x (sorted.getD r2.2 ⟨[], 0⟩).x r2.1

/-- Generate `n` parameter vectors from a seeded generator, threading the
random state. -/
def genList (g : ℕ → ℕ × List ℚ) : ℕ → ℕ → ℕ × List (List ℚ)
  | 0, s => (s, [])
  | n + 1, s =>
    let r := g s
    let rest := genList g n r.1
    (rest.1, r.2 :: rest.2)

/-- Modelled from the spec: one GA generation (§4.2 steps 1–8): sort, carry
the top `n_elitism` candidates unchanged, produce the mutated candidates
(with strength scaled up while stuck), the crossed-over candidates, fill the
remainder with freshly resampled candidates, evaluate the new candidates,
update the best-so-far, and update the stuck counter by the
`eps`-improvement test. -/
def stepGA (cfg : GAConfig) (st : GAState) : GAState :=
  let sorted := sortPop st.pop
  let elite := sorted.take cfg.n_elitism
  let strength := cfg.mut_strength
      * (1 + (st.stuck : ℚ) * (cfg.const_mut_strength - 1))
  let rm := genList (mutXsGen cfg sorted strength) cfg.n_mutation st.rng
  let rc := genList (crossXsGen cfg sorted) cfg.n_crossover rm.1
  let nRand := cfg.gen_size - (elite.length + cfg.n_mutation + cfg.n_crossover)
  let rr := genList (fun s => resampleVec cfg.vars s) nRand rc.1
  let newPop := elite ++ rm.2.map (mkCand cfg) ++ rc.2.map (mkCand cfg)
      ++ rr.2.map (mkCand cfg)
  let genBest := popBest0 cfg newPop
  let newBest := if st.best.y < genBest.y then genBest else st.best
  let improved := st.best.y + cfg.eps < newBest.y
  { pop := newPop
    best := newBest
    gen := st.gen + 1
    stuck := if improved then 0 else st.stuck + 1
    rng := rr.1
    nEval := st.nEval + (rm.2.length + rc.2.length + rr.2.length)
    hist := st.hist ++ [newBest.y] }

/-- Modelled from the spec: GA termination (§4.2 step 9) — stop at `maxiter`
generations or when the stuck counter reaches its threshold. -/
def gaHalt (cfg : GAConfig) (maxiter : ℕ) (st : GAState) : Bool :=
  decide (maxiter ≤ st.gen) || decide (cfg.n_stuck_gen ≤ st.stuck)

/-- The GA generation loop with explicit fuel (`fuel = maxiter` always
suffices because every generation increments the counter). -/
def runGA (cfg : GAConfig) (maxiter fuel : ℕ) (st : GAState) : GAState :=
  iterLoop (stepGA cfg) (gaHalt cfg maxiter) fuel st

/-- Modelled from the spec: GA initialization (§4.2) — a population of
`gen_size` freshly resampled, evaluated candidates. -/
def gaInit (cfg : GAConfig) (seed : ℕ) : GAState :=
  let r := genList (fun s => resampleVec cfg.vars s) cfg.gen_size seed
  let pop := r.2.map (mkCand cfg)
  { pop := pop
    best := popBest0 cfg pop
    gen := 0
    stuck := 0
    rng := r.1
    nEval := pop.length
    hist := [(popBest0 cfg pop).y] }

/-- Modelled from the spec: `restore_models_only = True` (§4.2) — only the
saved population is reused as a warm start: fitness re-evaluated, generation
counter and stuck counter reset to 0, fresh random state. -/
def gaWarm (cfg : GAConfig) (seed : ℕ) (ck : GAState) : GAState :=
  let pop := ck.pop.map (fun c => mkCand cfg c.x)
  { pop := pop
    best := popBest0 cfg pop
    gen := 0
    stuck := 0
    rng := seed
    nEval := pop.length
    hist := [(popBest0 cfg pop).y] }

/-- Modelled from the spec: the `Result` record (§3/§6) — best parameter
vector `x`, its score `y`, number of evaluations, history of intermediate
bests. -/
structure Result where
  x : List ℚ
  y : ℚ
  n_evals : ℕ
  history : List ℚ
deriving Repr

/-- The `Result` extracted from a final GA state. -/
def gaResult (st : GAState) : Result := ⟨st.best.x, st.best.y, st.nEval, st.hist⟩

/-- Modelled from the spec: the GA `optimize` contract (§4.2): restore the
full checkpoint when `restore_file` is given and `restore_models_only` is
false (exact continuation), reuse only the saved population when it is true,
and otherwise initialize from fresh resampling; then loop to `maxiter`. -/
def gaOptimize (cfg : GAConfig) (maxiter seed : ℕ) (restore : Option GAState)
    (restore_models_only : Bool) : Result :=
  let st0 :=
    match restore with
    | none => gaInit cfg seed
    | some ck => if restore_models_only then gaWarm cfg seed ck else ck
  gaResult (runGA cfg maxiter maxiter st0)

/-- Modelled from the spec: the local optimizer adapter's configuration
(§4.3): fitness function, variables, the log-scale transform option, and the
initial internal step size. -/
structure LSConfig where
  f : List ℚ → ℚ
  vars : List Variable
  log_transform : Bool
  init_step : ℚ

/-- Modelled from the spec: the local optimizer's state/checkpoint (§4.3):
current point with its score, iteration count, optimizer-internal state (step
size), random state, and the evaluation count and history for the
`Result`. -/
structure LSState where
  x : List ℚ
  y : ℚ
  iter : ℕ
  stepSize : ℚ
  rng : ℕ
  nEval : ℕ
  hist : List ℚ

/-- Modelled from the spec: one local-search proposal — perturb one
coordinate by the current step size (multiplicatively under the log-scale
transform), clipped to its domain. -/
def proposeLS (cfg : LSConfig) (st : LSState) : ℕ × List ℚ :=
  let r1 := rngBelow st.rng st.x.length
  let r2 := rngUnit r1.1
  let xi := st.x.getD r1.2 0
  let v := cfg.vars.getD r1.2 ⟨"", 0, 1, false⟩
  let xi2 :=
    if cfg.log_transform then xi * (1 + (2 * r2.2 - 1) * st.stepSize)
    else xi + (2 * r2.2 - 1) * st.stepSize
  (r2.1, st.x.set r1.2 (clip v.lower v.upper xi2))

/-- Modelled from the spec: one local-search iteration (§4.3): evaluate the
proposal, move to it when it improves, otherwise keep the point and shrink
the internal step size. -/
def stepLS (cfg : LSConfig) (st : LSState) : LSState :=
  let r := proposeLS cfg st
  let y2 := cfg.f r.2
  if st.y < y2 then
    ⟨r.2, y2, st.iter + 1, st.stepSize, r.1, st.nEval + 1, st.hist ++ [y2]⟩
  else
    ⟨st.x, st.y, st.iter + 1, st.stepSize / 2, r.1, st.nEval + 1,
     st.hist ++ [st.y]⟩

/-- Local-search termination: `maxiter` iterations. -/
def lsHalt (maxiter : ℕ) (st : LSState) : Bool := decide (maxiter ≤ st.iter)

/-- The local-search loop with explicit fuel. -/
def runLS (cfg : LSConfig) (maxiter fuel : ℕ) (st : LSState) : LSState :=
  iterLoop (stepLS cfg) (lsHalt maxiter) fuel st

/-- Modelled from the spec: local-optimizer initialization at `x0` (§4.3). -/
def lsInit (cfg : LSConfig) (seed : ℕ) (x0 : List ℚ) : LSState :=
  ⟨x0, cfg.f x0, 0, cfg.init_step, seed, 1, [cfg.f x0]⟩

/-- Modelled from the spec: `restore_models_only = True` for the local
optimizer (§4.3): reuse only the best point seen, re-evaluated, and restart
the internal optimizer state (step size, iteration count) from scratch. -/
def lsWarm (cfg : LSConfig) (seed : ℕ) (ck : LSState) : LSState :=
  ⟨ck.x, cfg.f ck.x, 0, cfg.init_step, seed, 1, [cfg.f ck.x]⟩

/-- The `Result` extracted from a final local-search state. -/
def lsResult (st : LSState) : Result := ⟨st.x, st.y, st.nEval, st.hist⟩

/-- Modelled from the spec: the local optimizer's `optimize` contract (§4.3)
with restore semantics analogous to the GA's. -/
def lsOptimize (cfg : LSConfig) (maxiter seed : ℕ) (x0 : List ℚ)
    (restore : Option LSState) (restore_models_only : Bool) : Result :=
  let st0 :=
    match restore with
    | none => lsInit cfg seed x0
    | some ck => if restore_models_only then lsWarm cfg seed ck else ck
  lsResult (runLS cfg maxiter maxiter st0)

/-- Modelled from the spec: the checkpoints a finished run leaves in its
output directory — the GA checkpoint and the local-optimizer checkpoint
(§4.4 `GLOBAL_SEARCH`/`LOCAL_REFINE` locate them there on resume). -/
structure OutputDir where
  gaCkpt : GAState
  lsCkpt : LSState

/-- Modelled from the spec: the settings a `CoreRun` consumes (§4.4): the
model/fitness built by the external collaborator (closed over in the two
optimizer configurations), the optimizers' iteration budgets, the
index-derived seed, `resume_from`, and `only_models`. -/
structure CoreSettings where
  gaCfg : GAConfig
  lsCfg : LSConfig
  gaMaxiter : ℕ
  lsMaxiter : ℕ
  seed : ℕ
  resume_from : Option OutputDir
  only_models : Bool

/-- Modelled from the spec: one full `CoreRun` (§4.4): run the GA (passing
the prior run's GA checkpoint as `restore_file` with `restore_models_only`
mirroring `only_models` when `resume_from` is set), then refine the GA's best
point with the local optimizer (similarly resumable from the prior run's
local-optimizer checkpoint), and report the final result together with the
saved checkpoints. -/
def coreRun (s : CoreSettings) : Result × OutputDir :=
  let ga0 :=
    match s.resume_from with
    | none => gaInit s.gaCfg s.seed
    | some dir =>
      if s.only_models then gaWarm s.gaCfg s.seed dir.gaCkpt else dir.gaCkpt
  let gaFin := runGA s.gaCfg s.gaMaxiter s.gaMaxiter ga0
  let ls0 :=
    match s.resume_from with
    | none => lsInit s.lsCfg (rngNext s.seed) gaFin.best.x
    | some dir =>
      if s.only_models then lsWarm s.lsCfg (rngNext s.seed) dir.lsCkpt
      else dir.lsCkpt
  let lsFin := runLS s.lsCfg s.lsMaxiter s.lsMaxiter ls0
  (⟨lsFin.x, lsFin.y, gaFin.nEval + lsFin.nEval, gaFin.hist ++ lsFin.hist⟩,
   ⟨gaFin, lsFin⟩)

theorem popBest_mem : ∀ (l : List Candidate) (c : Candidate),
    popBest c l ∈ c :: l := by
  intro l
  induction l with
  | nil => intro c; simp [popBest]
  | cons d ds ih =>
    intro c
    simp only [popBest]
    have h := ih (if c.y < d.y then d else c)
    rcases List.mem_cons.mp h with h1 | h1
    · rw [h1]
      by_cases hc : c.y < d.y <;> simp [hc]
    · exact List.mem_cons_of_mem _ (List.mem_cons_of_mem _ h1)

theorem popBest_le : ∀ (l : List Candidate) (c e : Candidate),
    e ∈ c :: l → e.y ≤ (popBest c l).y := by
  intro l
  induction l with
  | nil =>
    intro c e he
    rcases List.mem_cons.mp he with h | h
    · rw [h]; simp [popBest]
    · exact absurd h (List.not_mem_nil e)
  | cons d ds ih =>
    intro c e he
    simp only [popBest]
    have hc : c.y ≤ (if c.y < d.y then d else c).y := by
      by_cases h : c.y < d.y <;> simp [h]
      exact le_of_lt h
    have hd : d.y ≤ (if c.y < d.y then d else c).y := by
      by_cases h : c.y < d.y <;> simp [h]
      exact le_of_not_lt h
    have hhead := ih (if c.y < d.y then d else c) _
      (List.mem_cons_self _ _)
    rcases List.mem_cons.mp he with h | h
    · calc e.y = c.y := by rw [h]
        _ ≤ _ := le_trans hc hhead
    · rcases List.mem_cons.mp h with h2 | h2
      · calc e.y = d.y := by rw [h2]
          _ ≤ _ := le_trans hd hhead
      · exact ih _ e (List.mem_cons_of_mem _ h2)

theorem popBest0_mem (cfg : GAConfig) (l : List Candidate) (h : l ≠ []) :
    popBest0 cfg l ∈ l := by
  cases l with
  | nil => exact absurd rfl h
  | cons a t => exact popBest_mem t a

theorem popBest0_le (cfg : GAConfig) (l : List Candidate) (e : Candidate)
    (he : e ∈ l) : e.y ≤ (popBest0 cfg l).y := by
  cases l with
  | nil => exact absurd he (List.not_mem_nil e)
  | cons a t => exact popBest_le t a e he

theorem popBest0_consist (cfg : GAConfig) (l : List Candidate)
    (h : ∀ c ∈ l, c.y = cfg.f c.x) :
    (popBest0 cfg l).y = cfg.f (popBest0 cfg l).x := by
  cases l with
  | nil => rfl
  | cons a t => exact h _ (popBest_mem t a)

theorem mem_insertCand (c x : Candidate) :
    ∀ (l : List Candidate), x ∈ insertCand c l ↔ x = c ∨ x ∈ l := by
  intro l
  induction l with
  | nil => simp [insertCand]
  | cons d ds ih =>
    by_cases h : d.y < c.y
    · simp only [insertCand, if_pos h, List.mem_cons]
    · simp only [insertCand, if_neg h, List.mem_cons, ih]
      tauto

theorem sortPop_mem (x : Candidate) :
    ∀ (l : List Candidate), x ∈ sortPop l → x ∈ l := by
  intro l
  induction l with
  | nil => simp [sortPop]
  | cons a t ih =>
    intro hx
    have hx2 : x ∈ insertCand a (sortPop t) := hx
    rcases (mem_insertCand a x (sortPop t)).mp hx2 with h | h
    · rw [h]; exact List.mem_cons_self _ _
    · exact List.mem_cons_of_mem _ (ih h)

theorem sortPop_head_max : ∀ (l : List Candidate), l ≠ [] →
    ∃ hd tl, sortPop l = hd :: tl ∧ ∀ c ∈ l, c.y ≤ hd.y := by
  intro l
  induction l with
  | nil => intro h; exact absurd rfl h
  | cons a t ih =>
    intro _
    by_cases ht : t = []
    · subst ht
      exact ⟨a, [], rfl, by simp⟩
    · obtain ⟨hd, tl, hst, hmax⟩ := ih ht
      have hrw : sortPop (a :: t) = insertCand a (sortPop t) := rfl
      rw [hrw, hst]
      by_cases hy : hd.y < a.y
      · refine ⟨a, hd :: tl, by simp [insertCand, hy], ?_⟩
        intro c hc
        rcases List.mem_cons.mp hc with rfl | hc
        · exact le_refl _
        · exact le_trans (hmax c hc) (le_of_lt hy)
      · refine ⟨hd, insertCand a tl, by simp [insertCand, hy], ?_⟩
        intro c hc
        rcases List.mem_cons.mp hc with rfl | hc
        · exact le_of_not_lt hy
        · exact hmax c hc

theorem genList_length (g : ℕ → ℕ × List ℚ) :
    ∀ (n : ℕ) (s : ℕ), (genList g n s).2.length = n := by
  intro n
  induction n with
  | zero => intro s; rfl
  | succ n ih => intro s; simp [genList, ih]

/-- Internal consistency of a GA state: every cached score in the population
and the best-so-far score equal the fitness of the matching vector. -/
def gaConsist (cfg : GAConfig) (st : GAState) : Prop :=
  (∀ c ∈ st.pop, c.y = cfg.f c.x) ∧ st.best.y = cfg.f st.best.x

/-- The elitism invariant of a GA state: the population is non-empty and
carries a candidate at least as good as the best-so-far. -/
def gaBestInPop (st : GAState) : Prop :=
  st.pop ≠ [] ∧ ∃ c ∈ st.pop, st.best.y ≤ c.y

theorem map_mkCand_consist (cfg : GAConfig) (xs : List (List ℚ)) :
    ∀ c ∈ xs.map (mkCand cfg), c.y = cfg.f c.x := by
  intro c hc
  rcases List.mem_map.mp hc with ⟨x, _, rfl⟩
  rfl

theorem stepGA_gen (cfg : GAConfig) (st : GAState) :
    (stepGA cfg st).gen = st.gen + 1 := rfl

theorem stepGA_best_eq (cfg : GAConfig) (st : GAState) :
    (stepGA cfg st).best =
      if st.best.y < (popBest0 cfg (stepGA cfg st).pop).y
      then popBest0 cfg (stepGA cfg st).pop else st.best := rfl

theorem stepGA_best_mono (cfg : GAConfig) (st : GAState) :
    st.best.y ≤ (stepGA cfg st).best.y := by
  rw [stepGA_best_eq]
  split_ifs with h
  · exact le_of_lt h
  · exact le_refl _

theorem stepGA_pop_consist (cfg : GAConfig) (st : GAState)
    (h : ∀ c ∈ st.pop, c.y = cfg.f c.x) :
    ∀ c ∈ (stepGA cfg st).pop, c.y = cfg.f c.x := by
  intro c hc
  dsimp only [stepGA] at hc
  simp only [List.mem_append] at hc
  rcases hc with ((h1 | h2) | h3) | h4
  · exact h c (sortPop_mem c st.pop (List.take_subset _ _ h1))
  · exact map_mkCand_consist cfg _ c h2
  · exact map_mkCand_consist cfg _ c h3
  · exact map_mkCand_consist cfg _ c h4

theorem stepGA_consist (cfg : GAConfig) (st : GAState)
    (h : gaConsist cfg st) : gaConsist cfg (stepGA cfg st) := by
  obtain ⟨hpop, hbest⟩ := h
  have hnew := stepGA_pop_consist cfg st hpop
  refine ⟨hnew, ?_⟩
  rw [stepGA_best_eq]
  split_ifs with hlt
  · exact popBest0_consist cfg _ hnew
  · exact hbest

theorem stepGA_bestInPop (cfg : GAConfig) (st : GAState)
    (hel : 1 ≤ cfg.n_elitism) (h : gaBestInPop st) :
    gaBestInPop (stepGA cfg st) := by
  obtain ⟨hne, c0, hc0, hbc⟩ := h
  obtain ⟨hd, tl, hsort, hmax⟩ := sortPop_head_max st.pop hne
  have helite : hd ∈ (sortPop st.pop).take cfg.n_elitism := by
    rw [hsort]
    obtain ⟨m, hm⟩ : ∃ m, cfg.n_elitism = m + 1 :=
      ⟨cfg.n_elitism - 1, by omega⟩
    rw [hm]
    simp [List.take]
  have hpopmem : hd ∈ (stepGA cfg st).pop := by
    dsimp only [stepGA]
    simp only [List.mem_append]
    exact Or.inl (Or.inl (Or.inl helite))
  have hne2 : (stepGA cfg st).pop ≠ [] := by
    intro hnil
    rw [hnil] at hpopmem
    exact List.not_mem_nil hd hpopmem
  refine ⟨hne2, ?_⟩
  rw [stepGA_best_eq]
  split_ifs with hlt
  · exact ⟨popBest0 cfg (stepGA cfg st).pop, popBest0_mem cfg _ hne2,
      le_refl _⟩
  · exact ⟨hd, hpopmem, le_trans hbc (hmax c0 hc0)⟩

theorem gaInit_gen (cfg : GAConfig) (seed : ℕ) : (gaInit cfg seed).gen = 0 :=
  rfl

theorem gaInit_consist (cfg : GAConfig) (seed : ℕ) :
    gaConsist cfg (gaInit cfg seed) := by
  constructor
  · exact map_mkCand_consist cfg _
  · exact popBest0_consist cfg _ (map_mkCand_consist cfg _)

theorem gaInit_pop_length (cfg : GAConfig) (seed : ℕ) :
    (gaInit cfg seed).pop.length = cfg.gen_size := by
  dsimp only [gaInit]
  rw [List.length_map, genList_length]

theorem gaInit_bestInPop (cfg : GAConfig) (seed : ℕ)
    (hgs : 1 ≤ cfg.gen_size) : gaBestInPop (gaInit cfg seed) := by
  have hne : (gaInit cfg seed).pop ≠ [] := by
    have hl := gaInit_pop_length cfg seed
    intro hnil
    rw [hnil] at hl
    simp at hl
    omega
  exact ⟨hne, popBest0 cfg (gaInit cfg seed).pop, popBest0_mem cfg _ hne,
    le_refl _⟩

theorem gaWarm_consist (cfg : GAConfig) (seed : ℕ) (ck : GAState) :
    gaConsist cfg (gaWarm cfg seed ck) := by
  have hpop : ∀ c ∈ (gaWarm cfg seed ck).pop, c.y = cfg.f c.x := by
    intro c hc
    dsimp only [gaWarm] at hc
    rcases List.mem_map.mp hc with ⟨c0, _, rfl⟩
    rfl
  exact ⟨hpop, popBest0_consist cfg _ hpop⟩

theorem gaWarm_best_ge (cfg : GAConfig) (seed : ℕ) (ck : GAState)
    (hc : ∀ c ∈ ck.pop, c.y = cfg.f c.x)
    (hw : ∃ c ∈ ck.pop, ck.best.y ≤ c.y) :
    ck.best.y ≤ (gaWarm cfg seed ck).best.y := by
  obtain ⟨c0, hc0, hb⟩ := hw
  have hmem : mkCand cfg c0.x ∈ (gaWarm cfg seed ck).pop := by
    dsimp only [gaWarm]
    exact List.mem_map.mpr ⟨c0, hc0, rfl⟩
  have hle := popBest0_le cfg _ _ hmem
  have heq : (mkCand cfg c0.x).y = c0.y := (hc c0 hc0).symm
  exact le_trans (heq ▸ hb) hle

theorem gaMeasure_dec (cfg : GAConfig) (maxiter : ℕ) :
    ∀ t, gaHalt cfg maxiter t = false →
      maxiter - (stepGA cfg t).gen < maxiter - t.gen := by
  intro t ht
  simp only [gaHalt, Bool.or_eq_false_iff, decide_eq_false_iff_not] at ht
  rw [stepGA_gen]
  omega

theorem runGA_eq_of_fuel (cfg : GAConfig) (maxiter n m : ℕ) (st : GAState)
    (hn : maxiter - st.gen ≤ n) (hm : maxiter - st.gen ≤ m) :
    runGA cfg maxiter n st = runGA cfg maxiter m st :=
  iterLoop_eq_of_measure _ _ (fun t => maxiter - t.gen)
    (gaMeasure_dec cfg maxiter) n m st hn hm

theorem runGA_halted (cfg : GAConfig) (maxiter n : ℕ) (st : GAState)
    (hn : maxiter - st.gen ≤ n) :
    gaHalt cfg maxiter (runGA cfg maxiter n st) = true :=
  iterLoop_halted _ _ (fun t => maxiter - t.gen) (gaMeasure_dec cfg maxiter)
    n st hn

theorem runGA_halt_stable (cfg : GAConfig) (maxiter fuel : ℕ) (st : GAState)
    (h : gaHalt cfg maxiter st = true) : runGA cfg maxiter fuel st = st :=
  iterLoop_halt _ _ fuel st h

theorem runGA_add (cfg : GAConfig) (maxiter m n : ℕ) (st : GAState) :
    runGA cfg maxiter (m + n) st
      = runGA cfg maxiter n (runGA cfg maxiter m st) :=
  iterLoop_add _ _ m n st

theorem runGA_consist (cfg : GAConfig) (maxiter fuel : ℕ) (st : GAState)
    (h : gaConsist cfg st) : gaConsist cfg (runGA cfg maxiter fuel st) :=
  iterLoop_inv _ _ _ (fun t ht => stepGA_consist cfg t ht) fuel st h

theorem runGA_bestInPop (cfg : GAConfig) (maxiter fuel : ℕ) (st : GAState)
    (hel : 1 ≤ cfg.n_elitism) (h : gaBestInPop st) :
    gaBestInPop (runGA cfg maxiter fuel st) :=
  iterLoop_inv _ _ _ (fun t ht => stepGA_bestInPop cfg t hel ht) fuel st h

theorem runGA_best_mono (cfg : GAConfig) (maxiter fuel : ℕ) (st : GAState) :
    st.best.y ≤ (runGA cfg maxiter fuel st).best.y :=
  iterLoop_mono _ _ (fun t => t.best.y) (fun t => stepGA_best_mono cfg t)
    fuel st

/-- Internal consistency of a local-search state: the cached score is the
fitness of the current point. -/
def lsConsist (cfg : LSConfig) (st : LSState) : Prop := st.y = cfg.f st.x

theorem stepLS_iter (cfg : LSConfig) (st : LSState) :
    (stepLS cfg st).iter = st.iter + 1 := by
  dsimp only [stepLS]
  split_ifs <;> rfl

theorem stepLS_y_mono (cfg : LSConfig) (st : LSState) :
    st.y ≤ (stepLS cfg st).y := by
  dsimp only [stepLS]
  split_ifs with h
  · exact le_of_lt h
  · exact le_refl _

theorem stepLS_consist (cfg : LSConfig) (st : LSState)
    (h : lsConsist cfg st) : lsConsist cfg (stepLS cfg st) := by
  dsimp only [lsConsist, stepLS]
  split_ifs with hlt
  · rfl
  · exact h

theorem lsInit_consist (cfg : LSConfig) (seed : ℕ) (x0 : List ℚ) :
    lsConsist cfg (lsInit cfg seed x0) := rfl

theorem lsInit_iter (cfg : LSConfig) (seed : ℕ) (x0 : List ℚ) :
    (lsInit cfg seed x0).iter = 0 := rfl

theorem lsWarm_consist (cfg : LSConfig) (seed : ℕ) (ck : LSState) :
    lsConsist cfg (lsWarm cfg seed ck) := rfl

theorem lsMeasure_dec (maxiter : ℕ) (cfg : LSConfig) :
    ∀ t, lsHalt maxiter t = false →
      maxiter - (stepLS cfg t).iter < maxiter - t.iter := by
  intro t ht
  simp only [lsHalt, decide_eq_false_iff_not] at ht
  rw [stepLS_iter]
  omega

theorem runLS_halted (cfg : LSConfig) (maxiter n : ℕ) (st : LSState)
    (hn : maxiter - st.iter ≤ n) :
    lsHalt maxiter (runLS cfg maxiter n st) = true :=
  iterLoop_halted _ _ (fun t => maxiter - t.iter) (lsMeasure_dec maxiter cfg)
    n st hn

theorem runLS_halt_stable (cfg : LSConfig) (maxiter fuel : ℕ) (st : LSState)
    (h : lsHalt maxiter st = true) : runLS cfg maxiter fuel st = st :=
  iterLoop_halt _ _ fuel st h

theorem runLS_consist (cfg : LSConfig) (maxiter fuel : ℕ) (st : LSState)
    (h : lsConsist cfg st) : lsConsist cfg (runLS cfg maxiter fuel st) :=
  iterLoop_inv _ _ _ (fun t ht => stepLS_consist cfg t ht) fuel st h

theorem runLS_y_mono (cfg : LSConfig) (maxiter fuel : ℕ) (st : LSState) :
    st.y ≤ (runLS cfg maxiter fuel st).y :=
  iterLoop_mono _ _ (fun t => t.y) (fun t => stepLS_y_mono cfg t) fuel st

/-- C1: for every seeded GA run, `optimize` with `restore_file` set to a
checkpoint saved by that same run (the full state after `k` generations, for
any `k`) and `restore_models_only = False`, continued to the same `maxiter`,
returns a `Result` whose best score `y` equals the best score of the
uninterrupted run to that `maxiter`: the restored loop is an exact
continuation of the original sequence of generations. -/
theorem ga_restore_exact_continuation (cfg : GAConfig) (maxiter k seed : ℕ) :
    (gaOptimize cfg maxiter seed
        (some (runGA cfg maxiter k (gaInit cfg seed))) false).y
      = (gaOptimize cfg maxiter seed none false).y := by
  have hstate :
      runGA cfg maxiter maxiter (runGA cfg maxiter k (gaInit cfg seed))
        = runGA cfg maxiter maxiter (gaInit cfg seed) := by
    rw [← runGA_add]
    exact runGA_eq_of_fuel cfg maxiter (k + maxiter) maxiter (gaInit cfg seed)
      (by rw [gaInit_gen]; omega) (by rw [gaInit_gen]; omega)
  simp only [gaOptimize, gaResult, Bool.false_eq_true, if_false]
  rw [hstate]

/-- C3: within one GA run (maximize mode) the best-so-far score is
monotonically non-decreasing: each generation's best is at least the
previous one's, any number of further generations never decreases it, and in
particular continuing a run from its checkpoint after `k` generations with
any (larger) `maxiter2` yields a final best score at least as good as the
best score recorded at checkpoint time. -/
theorem ga_best_monotone (cfg : GAConfig) (st : GAState)
    (maxiter fuel k seed maxiter2 : ℕ) :
    st.best.y ≤ (stepGA cfg st).best.y
    ∧ st.best.y ≤ (runGA cfg maxiter fuel st).best.y
    ∧ (runGA cfg maxiter k (gaInit cfg seed)).best.y
        ≤ (gaOptimize cfg maxiter2 seed
            (some (runGA cfg maxiter k (gaInit cfg seed))) false).y := by
  refine ⟨stepGA_best_mono cfg st, runGA_best_mono cfg maxiter fuel st, ?_⟩
  simp only [gaOptimize, gaResult, Bool.false_eq_true, if_false]
  exact runGA_best_mono cfg maxiter2 maxiter2 _

/-- C4: resuming with `restore_models_only = True` from a checkpoint of the
same run preserves monotonic improvement: the continuation's final best
score is at least the score at checkpoint time — both for the GA (whose
warm start re-evaluates the saved population, which by elitism contains a
candidate as good as the checkpoint's best) and for the local optimizer
(whose warm start re-evaluates the saved best point). -/
theorem restore_models_only_best_preserved (cfg : GAConfig) (lsCfg : LSConfig)
    (maxiter k maxiter2 seed seed2 lsk : ℕ) (x0 : List ℚ)
    (hel : 1 ≤ cfg.n_elitism) (hgs : 1 ≤ cfg.gen_size) :
    ((runGA cfg maxiter k (gaInit cfg seed)).best.y
      ≤ (gaOptimize cfg maxiter2 seed2
          (some (runGA cfg maxiter k (gaInit cfg seed))) true).y)
    ∧ ((runLS lsCfg maxiter lsk (lsInit lsCfg seed x0)).y
      ≤ (lsOptimize lsCfg maxiter2 seed2 x0
          (some (runLS lsCfg maxiter lsk (lsInit lsCfg seed x0))) true).y) := by
  constructor
  · have hconsist : gaConsist cfg (runGA cfg maxiter k (gaInit cfg seed)) :=
      runGA_consist cfg maxiter k _ (gaInit_consist cfg seed)
    have hbip : gaBestInPop (runGA cfg maxiter k (gaInit cfg seed)) :=
      runGA_bestInPop cfg maxiter k _ hel (gaInit_bestInPop cfg seed hgs)
    have hwarm := gaWarm_best_ge cfg seed2 _ hconsist.1 hbip.2
    have hrun := runGA_best_mono cfg maxiter2 maxiter2
      (gaWarm cfg seed2 (runGA cfg maxiter k (gaInit cfg seed)))
    simp only [gaOptimize, gaResult, if_true]
    exact le_trans hwarm hrun
  · have hconsist : lsConsist lsCfg (runLS lsCfg maxiter lsk
        (lsInit lsCfg seed x0)) :=
      runLS_consist lsCfg maxiter lsk _ (lsInit_consist lsCfg seed x0)
    have hwarm : (runLS lsCfg maxiter lsk (lsInit lsCfg seed x0)).y
        = (lsWarm lsCfg seed2 (runLS lsCfg maxiter lsk
            (lsInit lsCfg seed x0))).y := hconsist
    have hrun := runLS_y_mono lsCfg maxiter2 maxiter2
      (lsWarm lsCfg seed2 (runLS lsCfg maxiter lsk (lsInit lsCfg seed x0)))
    simp only [lsOptimize, lsResult, if_true]
    rw [hwarm]
    exact hrun

/-- Concrete configurations for the C4 witness. -/
def gaCfgW : GAConfig :=
  ⟨fun xs => -(xs.getD 0 0), [⟨"var1", 0, 1, false⟩], 2, 1, 1, 0, 1, 1, 0, 3⟩

/-- Concrete local-search configuration for the C4 witness. -/
def lsCfgW : LSConfig := ⟨fun xs => -(xs.getD 0 0), [⟨"var1", 0, 1, false⟩],
  false, 1⟩

/-- C4 witness: the theorem applied at a concrete configuration with one
elite slot and generation size 2. -/
theorem restore_models_only_best_preserved_witness :
    (1 ≤ gaCfgW.n_elitism ∧ 1 ≤ gaCfgW.gen_size)
    ∧ ((runGA gaCfgW 2 1 (gaInit gaCfgW 0)).best.y
      ≤ (gaOptimize gaCfgW 3 5
          (some (runGA gaCfgW 2 1 (gaInit gaCfgW 0))) true).y) :=
  ⟨⟨by decide, by decide⟩,
   (restore_models_only_best_preserved gaCfgW lsCfgW 2 1 3 0 5 1 [0]
      (by decide) (by decide)).1⟩

/-- C5: every `Result` returned by an optimizer's `optimize` call is
internally consistent: its score `y` equals the fitness function applied to
its best parameter vector `x` — for the GA and the local optimizer, for
fresh runs and for runs restored (fully or models-only) from a checkpoint of
a run. -/
theorem optimize_result_consistent (gaCfg : GAConfig) (lsCfg : LSConfig)
    (maxiter maxiter0 k seed seed2 : ℕ) (x0 : List ℚ) (mo : Bool) :
    ((gaOptimize gaCfg maxiter seed none false).y
        = gaCfg.f (gaOptimize gaCfg maxiter seed none false).x)
    ∧ ((gaOptimize gaCfg maxiter seed2
          (some (runGA gaCfg maxiter0 k (gaInit gaCfg seed))) mo).y
        = gaCfg.f (gaOptimize gaCfg maxiter seed2
          (some (runGA gaCfg maxiter0 k (gaInit gaCfg seed))) mo).x)
    ∧ ((lsOptimize lsCfg maxiter seed x0 none false).y
        = lsCfg.f (lsOptimize lsCfg maxiter seed x0 none false).x)
    ∧ ((lsOptimize lsCfg maxiter seed2 x0
          (some (runLS lsCfg maxiter0 k (lsInit lsCfg seed x0))) mo).y
        = lsCfg.f (lsOptimize lsCfg maxiter seed2 x0
          (some (runLS lsCfg maxiter0 k (lsInit lsCfg seed x0))) mo).x) := by
  refine ⟨?_, ?_, ?_, ?_⟩
  · simp only [gaOptimize, gaResult, Bool.false_eq_true, if_false]
    exact (runGA_consist gaCfg maxiter maxiter _ (gaInit_consist gaCfg seed)).2
  · cases mo
    · simp only [gaOptimize, gaResult, Bool.false_eq_true, if_false]
      exact (runGA_consist _ _ _ _
        (runGA_consist _ _ _ _ (gaInit_consist _ _))).2
    · simp only [gaOptimize, gaResult, if_true]
      exact (runGA_consist _ _ _ _ (gaWarm_consist _ _ _)).2
  · simp only [lsOptimize, lsResult, Bool.false_eq_true, if_false]
    exact runLS_consist _ _ _ _ (lsInit_consist _ _ _)
  · cases mo
    · simp only [lsOptimize, lsResult, Bool.false_eq_true, if_false]
      exact runLS_consist _ _ _ _
        (runLS_consist _ _ _ _ (lsInit_consist _ _ _))
    · simp only [lsOptimize, lsResult, if_true]
      exact runLS_consist _ _ _ _ (lsWarm_consist _ _ _)

/-- C2: for every `CoreRun` whose settings set `resume_from` to a prior
run's output directory with `only_models` false, the resumed run reproduces
the prior run's trajectory exactly — its final `Result` score `y` equals the
original run's score; with `only_models` true the resumed run only
warm-starts from the saved models, and its final score is at least as good
as the exactly-resumed run's score. -/
theorem coreRun_resume_semantics (gaCfg : GAConfig) (lsCfg : LSConfig)
    (gaIter lsIter seed : ℕ) :
    ((coreRun ⟨gaCfg, lsCfg, gaIter, lsIter, seed,
        some (coreRun ⟨gaCfg, lsCfg, gaIter, lsIter, seed, none, false⟩).2,
        false⟩).1.y
      = (coreRun ⟨gaCfg, lsCfg, gaIter, lsIter, seed, none, false⟩).1.y)
    ∧ ((coreRun ⟨gaCfg, lsCfg, gaIter, lsIter, seed,
        some (coreRun ⟨gaCfg, lsCfg, gaIter, lsIter, seed, none, false⟩).2,
        true⟩).1.y
      ≥ (coreRun ⟨gaCfg, lsCfg, gaIter, lsIter, seed,
        some (coreRun ⟨gaCfg, lsCfg, gaIter, lsIter, seed, none, false⟩).2,
        false⟩).1.y) := by
  have hga : gaHalt gaCfg gaIter
      (runGA gaCfg gaIter gaIter (gaInit gaCfg seed)) = true :=
    runGA_halted gaCfg gaIter gaIter _ (by rw [gaInit_gen]; omega)
  have hls : lsHalt lsIter
      (runLS lsCfg lsIter lsIter (lsInit lsCfg (rngNext seed)
        (runGA gaCfg gaIter gaIter (gaInit gaCfg seed)).best.x)) = true :=
    runLS_halted lsCfg lsIter lsIter _ (by rw [lsInit_iter]; omega)
  have hcons : lsConsist lsCfg
      (runLS lsCfg lsIter lsIter (lsInit lsCfg (rngNext seed)
        (runGA gaCfg gaIter gaIter (gaInit gaCfg seed)).best.x)) :=
    runLS_consist _ _ _ _ (lsInit_consist _ _ _)
  constructor
  · simp only [coreRun, Bool.false_eq_true, if_false]
    rw [runLS_halt_stable lsCfg lsIter lsIter _ hls]
  · simp only [coreRun, Bool.false_eq_true, if_false, if_true]
    rw [runLS_halt_stable lsCfg lsIter lsIter _ hls]
    exact le_trans (le_of_eq hcons) (runLS_y_mono lsCfg lsIter lsIter _)
